import Mathlib

/-!
Verification of the kioku memory-arena allocator (`src/lib.rs`).

The arena state is shallowly embedded: a `Block` is a `Vec<MaybeUninit<u8>>`
modelled by its base address, its capacity and its length (`filled`); the
`Arena` carries the block list (front of the list = front of the Rust
`LinkedList`, i.e. the current bump target), the configuration fields and the
two statistics counters.  Machine pointers are modelled by natural-number
addresses supplied by an oracle `addrOf : Nat → Nat` that maps the creation
index of a block to the base address the real allocator happened to return
(the Rust code never assumes anything about those addresses beyond what the
oracle model provides).  A panic of the Rust code (assertion failure,
`%`/`/` by zero, `unwrap` of `None`) is modelled by returning `none`.
-/

/-- One memory block: a `Vec<MaybeUninit<u8>>` in the Rust code.
`id` is the creation index of the block (model bookkeeping used to name
blocks; the Rust code identifies blocks only by position/pointer),
`addr` is the base address `as_ptr()`, `capacity` is `Vec::capacity()` and
`filled` is `Vec::len()`. -/
structure Block where
  id : Nat
  addr : Nat
  capacity : Nat
  filled : Nat
deriving Repr, DecidableEq, Inhabited

/-- `GrowthStrategy` from `src/lib.rs` (the `u8` percentage is widened to
`Nat`). -/
inductive GrowthStrategy where
  | Constant : GrowthStrategy
  | Percentage : Nat → GrowthStrategy
deriving Repr, DecidableEq, Inhabited

/-- The `Arena` struct from `src/lib.rs`.  The head of `blocks` is the front
of the `LinkedList`, i.e. the block currently receiving bump allocations.
`nextId` is model bookkeeping: the creation index handed to the next block
(it corresponds to no runtime data of the Rust struct). -/
structure Arena where
  blocks : List Block
  min_block_size : Nat
  growth_strategy : GrowthStrategy
  max_waste_percentage : Nat
  stat_space_occupied : Nat
  stat_space_allocated : Nat
  nextId : Nat
deriving Repr, DecidableEq, Inhabited

/-- State of a freshly constructed arena holding the given configuration:
`Arena::new()` followed by the configuration builders, which only set the
three configuration fields and assert that no block exists yet. -/
def freshArena (min_block_size : Nat) (growth_strategy : GrowthStrategy)
    (max_waste_percentage : Nat) : Arena :=
  ⟨[], min_block_size, growth_strategy, max_waste_percentage, 0, 0, 0⟩

/-- `Arena::new()`: 1 KiB blocks, constant growth, 20 percent max waste. -/
def Arena.new : Arena :=
  freshArena 1024 GrowthStrategy.Constant 20

/-- The span of bytes handed out by one allocation, named as the
`(block, offset, length)` triple of the block it was carved from, together
with the block's base address (`base + off` is the returned pointer). -/
structure Span where
  blockId : Nat
  base : Nat
  off : Nat
  len : Nat
deriving Repr, DecidableEq, Inhabited

/-- `alignment_offset` from `alloc_raw` (and `src/utils.rs`):
`(alignment - (addr % alignment)) % alignment`.  In Rust `addr % 0` panics;
every call site below is guarded by an `alignment = 0` check that models
that panic. -/
def alignment_offset (addr alignment : Nat) : Nat :=
  (alignment - addr % alignment) % alignment

/-- The next-shared-block size computed in the slow path of `alloc_raw`:
`Constant` gives `min_block_size`; `Percentage(perc)` computes
`a = stat_space_occupied / 100 * perc`, `b = a % min_block_size` and takes
`min_block_size.max(a - b)`. -/
def next_shared_size (growth_strategy : GrowthStrategy)
    (min_block_size occupied : Nat) : Nat :=
  match growth_strategy with
  | GrowthStrategy.Constant => min_block_size
  | GrowthStrategy.Percentage perc =>
      let a := occupied / 100 * perc
      let b := a % min_block_size
      max min_block_size (a - b)

/-- Modelled from the spec (§4.2 GrowthPolicy), for comparison with the
code's `next_shared_size`: `a = occupied * p / 100` (floor division),
`b = a mod min_block_size`, result `max(min_block_size, a - b)` for
`Percentage(p)`; `min_block_size` for `Constant`. -/
def next_shared_size_spec (growth_strategy : GrowthStrategy)
    (min_block_size occupied : Nat) : Nat :=
  match growth_strategy with
  | GrowthStrategy.Constant => min_block_size
  | GrowthStrategy.Percentage p =>
      let a := occupied * p / 100
      let b := a % min_block_size
      max min_block_size (a - b)

/-- First half of `alloc_raw`: `if blocks.is_empty() { push_front(new block
of min_block_size capacity); occupied += min_block_size }`. -/
def ensureBlock (addrOf : Nat → Nat) (ar : Arena) : Arena :=
  if ar.blocks.isEmpty then
    { ar with
      blocks := [⟨ar.nextId, addrOf ar.nextId, ar.min_block_size, 0⟩],
      stat_space_occupied := ar.stat_space_occupied + ar.min_block_size,
      nextId := ar.nextId + 1 }
  else ar

/-- Body of `alloc_raw` once a head block exists.  `curBlock :: rest` is
`ar.blocks`.  Mirrors the Rust code line by line: the zero-size early
return, the fast path (with its `.max(cur_block.len())`), and the slow path
with the waste heuristic and the shared (`push_front`) / standalone
(`push_back`) choice.  `none` models a Rust panic: `% 0` inside
`alignment_offset`, or `/ 0` in the waste computation. -/
def allocWithHead (addrOf : Nat → Nat) (size alignment : Nat)
    (curBlock : Block) (rest : List Block) (ar : Arena) :
    Option (Span × Arena) :=
  if size = 0 then
    some (⟨curBlock.id, curBlock.addr, 0, 0⟩, ar)
  else if alignment = 0 then
    none
  else
    let start_index_proposal :=
      curBlock.filled +
        alignment_offset (curBlock.addr + curBlock.filled) alignment
    if start_index_proposal + size ≤ curBlock.capacity then
      some (⟨curBlock.id, curBlock.addr, start_index_proposal, size⟩,
        { ar with
          blocks :=
            { curBlock with
              filled := max (start_index_proposal + size) curBlock.filled }
              :: rest,
          stat_space_allocated := ar.stat_space_allocated + size })
    else if curBlock.capacity = 0 ∨ ar.stat_space_occupied = 0 then
      none
    else
      let nss := next_shared_size ar.growth_strategy ar.min_block_size
        ar.stat_space_occupied
      let w1 := (curBlock.capacity - curBlock.filled) * 100 / curBlock.capacity
      let w2 := (ar.stat_space_occupied - ar.stat_space_allocated) * 100 /
        ar.stat_space_occupied
      let waste_percentage := min w1 w2
      let new_block_size :=
        if size + alignment ≤ nss ∧
            waste_percentage ≤ ar.max_waste_percentage then nss
        else size + alignment - 1
      let newAddr := addrOf ar.nextId
      let start_index := alignment_offset newAddr alignment
      let newBlock : Block := ⟨ar.nextId, newAddr, new_block_size,
        start_index + size⟩
      some (⟨ar.nextId, newAddr, start_index, size⟩,
        { ar with
          blocks :=
            if size + alignment ≤ nss ∧
                waste_percentage ≤ ar.max_waste_percentage then
              newBlock :: curBlock :: rest
            else (curBlock :: rest) ++ [newBlock],
          stat_space_occupied := ar.stat_space_occupied + new_block_size,
          stat_space_allocated := ar.stat_space_allocated + size,
          nextId := ar.nextId + 1 })

/-- `Arena::alloc_raw` for a layout of the given `size` and `alignment`.
Returns the span handed out and the new arena state, or `none` on a panic. -/
def alloc_raw (addrOf : Nat → Nat) (size alignment : Nat) (ar : Arena) :
    Option (Span × Arena) :=
  let ar1 := ensureBlock addrOf ar
  match ar1.blocks with
  | [] => none
  | curBlock :: rest => allocWithHead addrOf size alignment curBlock rest ar1

/-- `Arena::clear_unchecked`: drop every block and zero both counters.
`nextId` is model bookkeeping with no Rust counterpart; it is reset so that
the model state coincides with the state of a fresh arena, exactly as the
Rust state does. -/
def clear_unchecked (ar : Arena) : Arena :=
  { ar with
    blocks := [],
    stat_space_occupied := 0,
    stat_space_allocated := 0,
    nextId := 0 }

/-- `Arena::clear`: the checked form just calls `clear_unchecked`. -/
def Arena.clear (ar : Arena) : Arena :=
  clear_unchecked ar

/-- `Arena::alloc_uninit::<T>` for an element type `T` of size `elemSize`
and alignment `elemAlign`: the `assert!(size_of::<T>() > 0)` panic is the
`none` branch, then `alloc_raw` runs on `Layout::new::<T>()`. -/
def alloc_uninit (addrOf : Nat → Nat) (elemSize elemAlign : Nat)
    (ar : Arena) : Option (Span × Arena) :=
  if elemSize = 0 then none
  else alloc_raw addrOf elemSize elemAlign ar

/-- Assumed 64-bit target: `Layout::array` fails above `isize::MAX`. -/
def isizeMax : Nat := 2 ^ 63 - 1

/-- `Arena::alloc_array_uninit::<T>(len)`: the zero-sized-type assertion,
then `Layout::array::<T>(len).unwrap()` (whose overflow check is the
`isizeMax` guard; for a real Rust type the element size is already a
multiple of its alignment, so the array layout is `(elemSize * len,
elemAlign)`), then `alloc_raw`. -/
def alloc_array_uninit (addrOf : Nat → Nat) (elemSize elemAlign len : Nat)
    (ar : Arena) : Option (Span × Arena) :=
  if elemSize = 0 then none
  else if elemSize * len ≤ isizeMax then
    alloc_raw addrOf (elemSize * len) elemAlign ar
  else none

/-- Two spans are disjoint when they are carved from different blocks, one
is empty, or their byte intervals inside the common block do not overlap. -/
def spansDisjoint (s t : Span) : Prop :=
  s.len = 0 ∨ t.len = 0 ∨ s.blockId ≠ t.blockId ∨
    s.off + s.len ≤ t.off ∨ t.off + t.len ≤ s.off

instance (s t : Span) : Decidable (spansDisjoint s t) := by
  unfold spansDisjoint; infer_instance

/-- Operations a client can perform on an arena.  `stats` is the read-only
statistics query (present in `src/lib.rs` only as commented-out code; it
reads the two counters and the block count and changes nothing). -/
inductive Op where
  | alloc : Nat → Nat → Op
  | clear : Op
  | stats : Op
deriving Repr, DecidableEq

/-- Run a list of operations, threading the arena state; `none` as soon as
one operation panics. -/
def runOps (addrOf : Nat → Nat) (ops : List Op) (ar : Arena) :
    Option Arena :=
  match ops with
  | [] => some ar
  | Op.alloc size alignment :: rest =>
      match alloc_raw addrOf size alignment ar with
      | none => none
      | some (_, ar') => runOps addrOf rest ar'
  | Op.clear :: rest => runOps addrOf rest (clear_unchecked ar)
  | Op.stats :: rest => runOps addrOf rest ar

/-- Run a list of `(size, alignment)` allocation requests, collecting the
spans handed out in order. -/
def runAllocs (addrOf : Nat → Nat) (reqs : List (Nat × Nat)) (ar : Arena) :
    Option (List Span × Arena) :=
  match reqs with
  | [] => some ([], ar)
  | (size, alignment) :: rest =>
      match alloc_raw addrOf size alignment ar with
      | none => none
      | some (sp, ar') =>
          match runAllocs addrOf rest ar' with
          | none => none
          | some (sps, ar'') => some (sp :: sps, ar'')

/-- Sum of the capacities of a list of blocks. -/
def sumCap (bs : List Block) : Nat :=
  (bs.map Block.capacity).sum

/-- Sum of the filled lengths of a list of blocks. -/
def sumFilled (bs : List Block) : Nat :=
  (bs.map Block.filled).sum

/-- The arena invariant: every block's length is within its capacity, the
`stat_space_occupied` counter is the total capacity, the
`stat_space_allocated` counter is bounded by the total filled length, block
creation indices are distinct, and all of them are below `nextId`. -/
def ArenaInv (ar : Arena) : Prop :=
  (∀ b ∈ ar.blocks, b.filled ≤ b.capacity) ∧
  ar.stat_space_occupied = sumCap ar.blocks ∧
  ar.stat_space_allocated ≤ sumFilled ar.blocks ∧
  (ar.blocks.map Block.id).Nodup ∧
  (∀ b ∈ ar.blocks, b.id < ar.nextId)

/-! ### Arithmetic facts about `alignment_offset` -/

theorem alignment_offset_lt (x a : Nat) (ha : 0 < a) :
    alignment_offset x a < a := by
  unfold alignment_offset
  exact Nat.mod_lt _ ha

theorem alignment_offset_add_mod (x a : Nat) (ha : 0 < a) :
    (x + alignment_offset x a) % a = 0 := by
  unfold alignment_offset
  rcases Nat.eq_zero_or_pos (x % a) with h | h
  · simp [h, Nat.mod_self, Nat.add_mod]
  · have hlt : x % a < a := Nat.mod_lt _ ha
    have hoff : (a - x % a) % a = a - x % a := Nat.mod_eq_of_lt (by omega)
    rw [hoff]
    have hd := Nat.div_add_mod x a
    have hx : x + (a - x % a) = a * (x / a) + a := by omega
    rw [hx]
    simp [Nat.add_mod, Nat.mul_mod_right]

/-! ### Sums of capacities and lengths -/

theorem sumCap_cons (b : Block) (l : List Block) :
    sumCap (b :: l) = b.capacity + sumCap l := by
  simp [sumCap]

theorem sumFilled_cons (b : Block) (l : List Block) :
    sumFilled (b :: l) = b.filled + sumFilled l := by
  simp [sumFilled]

theorem sumCap_nil : sumCap [] = 0 := rfl

theorem sumFilled_nil : sumFilled [] = 0 := rfl

theorem sumCap_append (l₁ l₂ : List Block) :
    sumCap (l₁ ++ l₂) = sumCap l₁ + sumCap l₂ := by
  simp [sumCap]

theorem sumFilled_append (l₁ l₂ : List Block) :
    sumFilled (l₁ ++ l₂) = sumFilled l₁ + sumFilled l₂ := by
  simp [sumFilled]

/-! ### Soundness of one allocation step -/

/-- Everything a single successful `allocWithHead` step guarantees: the
configuration is untouched, `nextId` grows, the span's length is the
requested size, every pre-existing block survives with the same identity,
address and capacity and a no-smaller length, the span ends within the
length of its (post-state) block, the arena invariant is preserved, a
non-empty span starts at or after the current length of any pre-state block
it names, and a non-zero-size span's address is aligned. -/
theorem allocWithHead_sound (addrOf : Nat → Nat) (size alignment : Nat)
    (curBlock : Block) (rest : List Block) (ar : Arena) (sp : Span)
    (ar' : Arena) (hb : ar.blocks = curBlock :: rest)
    (h : allocWithHead addrOf size alignment curBlock rest ar
      = some (sp, ar')) :
    ar'.min_block_size = ar.min_block_size ∧
    ar'.growth_strategy = ar.growth_strategy ∧
    ar'.max_waste_percentage = ar.max_waste_percentage ∧
    ar.nextId ≤ ar'.nextId ∧
    sp.len = size ∧
    (∀ b ∈ ar.blocks, ∃ b' ∈ ar'.blocks,
      b'.id = b.id ∧ b'.addr = b.addr ∧ b'.capacity = b.capacity ∧
      b.filled ≤ b'.filled) ∧
    (∃ b' ∈ ar'.blocks, sp.blockId = b'.id ∧ sp.base = b'.addr ∧
      sp.off + sp.len ≤ b'.filled) ∧
    (ArenaInv ar → ArenaInv ar') ∧
    (ArenaInv ar →
      sp.len = 0 ∨ ∀ b ∈ ar.blocks, sp.blockId = b.id → b.filled ≤ sp.off) ∧
    (size ≠ 0 → (sp.base + sp.off) % alignment = 0) := by
  simp only [allocWithHead] at h
  split_ifs at h with h0 h1 h2 h3 h4
  · -- size = 0: the arena is returned unchanged.
    simp only [Option.some.injEq, Prod.mk.injEq] at h
    obtain ⟨hsp, har⟩ := h
    subst hsp; subst har
    refine ⟨rfl, rfl, rfl, le_refl _, h0.symm, ?_, ?_, fun hI => hI, ?_, ?_⟩
    · intro b hbmem
      exact ⟨b, hbmem, rfl, rfl, rfl, le_refl _⟩
    · exact ⟨curBlock, by rw [hb]; exact List.mem_cons_self _ _,
        rfl, rfl, by simp⟩
    · intro _; left; rfl
    · intro hsz; exact absurd h0 hsz
  · -- fast path
    simp only [Option.some.injEq, Prod.mk.injEq] at h
    obtain ⟨hsp, har⟩ := h
    subst hsp; subst har
    refine ⟨rfl, rfl, rfl, le_refl _, rfl, ?_, ?_, ?_, ?_, ?_⟩
    · intro b hbmem
      rw [hb] at hbmem
      rcases List.mem_cons.mp hbmem with hcur | hrest
      · subst hcur
        refine ⟨_, List.mem_cons_self _ _, rfl, rfl, rfl, ?_⟩
        exact le_max_right _ _
      · exact ⟨b, List.mem_cons_of_mem _ hrest, rfl, rfl, rfl, le_refl _⟩
    · refine ⟨_, List.mem_cons_self _ _, rfl, rfl, ?_⟩
      simp only [Span.off, Span.len, Block.filled]
      exact le_max_left _ _
    · rintro ⟨i1, i2, i3, i4, i5⟩
      rw [hb] at i1 i2 i3 i4 i5
      refine ⟨?_, ?_, ?_, ?_, ?_⟩
      · intro b hbmem
        simp only [Arena.blocks] at hbmem
        rcases List.mem_cons.mp hbmem with hcur | hrest
        · subst hcur
          simp only [Block.capacity, Block.filled]
          exact max_le h2 (i1 curBlock (List.mem_cons_self _ _))
        · exact i1 b (List.mem_cons_of_mem _ hrest)
      · simpa [sumCap_cons, hb] using i2
      · have hstart : curBlock.filled ≤ curBlock.filled +
            alignment_offset (curBlock.addr + curBlock.filled) alignment :=
          Nat.le_add_right _ _
        have hsz : 1 ≤ size := Nat.one_le_iff_ne_zero.mpr h0
        simp only [Arena.stat_space_allocated, sumFilled_cons,
          Block.filled] at *
        have hmax : curBlock.filled + size ≤
            max (curBlock.filled +
              alignment_offset (curBlock.addr + curBlock.filled) alignment
              + size) curBlock.filled := by
          have : curBlock.filled + size ≤ curBlock.filled +
              alignment_offset (curBlock.addr + curBlock.filled) alignment
              + size := by omega
          exact le_trans this (le_max_left _ _)
        omega
      · simpa [hb] using i4
      · intro b hbmem
        simp only [Arena.blocks] at hbmem
        rcases List.mem_cons.mp hbmem with hcur | hrest
        · subst hcur
          exact i5 curBlock (List.mem_cons_self _ _)
        · exact i5 b (List.mem_cons_of_mem _ hrest)
    · rintro ⟨i1, i2, i3, i4, i5⟩
      right
      intro b hbmem hid
      rw [hb] at hbmem i4
      rcases List.mem_cons.mp hbmem with hcur | hrest
      · subst hcur
        simp only [Span.off]
        exact Nat.le_add_right _ _
      · exfalso
        simp only [List.map_cons, List.nodup_cons] at i4
        exact i4.1 (by
          simp only [Span.blockId] at hid
          exact hid ▸ List.mem_map_of_mem Block.id hrest)
    · intro _
      simp only [Span.base, Span.off]
      rw [← Nat.add_assoc]
      exact alignment_offset_add_mod _ _ (Nat.pos_of_ne_zero h1)
  · -- slow path, shared block
    simp only [Option.some.injEq, Prod.mk.injEq] at h
    obtain ⟨hsp, har⟩ := h
    subst hsp; subst har
    have hal : 0 < alignment := Nat.pos_of_ne_zero h1
    have hoff : alignment_offset (addrOf ar.nextId) alignment < alignment :=
      alignment_offset_lt _ _ hal
    refine ⟨rfl, rfl, rfl, Nat.le_succ _, rfl, ?_, ?_, ?_, ?_, ?_⟩
    · intro b hbmem
      rw [hb] at hbmem
      exact ⟨b, List.mem_cons_of_mem _ hbmem, rfl, rfl, rfl, le_refl _⟩
    · exact ⟨_, List.mem_cons_self _ _, rfl, rfl, le_refl _⟩
    · rintro ⟨i1, i2, i3, i4, i5⟩
      rw [hb] at i1 i2 i3 i4 i5
      refine ⟨?_, ?_, ?_, ?_, ?_⟩
      · intro b hbmem
        simp only [Arena.blocks] at hbmem
        rcases List.mem_cons.mp hbmem with hnew | hold
        · subst hnew
          simp only [Block.capacity, Block.filled]
          omega
        · exact i1 b hold
      · rw [sumCap_cons] at i2
        simp only [Arena.stat_space_occupied, Arena.blocks, sumCap_cons,
          Block.capacity]
        omega
      · rw [sumFilled_cons] at i3
        simp only [Arena.stat_space_allocated, Arena.blocks, sumFilled_cons,
          Block.filled]
        omega
      · simp only [Arena.blocks, List.map_cons, List.nodup_cons, Block.id]
        constructor
        · intro hmem
          rw [← List.map_cons] at hmem
          obtain ⟨b, hbmem, hbid⟩ := List.mem_map.mp hmem
          exact absurd hbid (Nat.ne_of_lt (i5 b hbmem))
        · simpa using i4
      · intro b hbmem
        simp only [Arena.blocks, Arena.nextId] at hbmem ⊢
        rcases List.mem_cons.mp hbmem with hnew | hold
        · subst hnew; simp
        · exact Nat.lt_succ_of_lt (i5 b hold)
    · rintro ⟨i1, i2, i3, i4, i5⟩
      right
      intro b hbmem hid
      exfalso
      rw [hb] at i5
      have := i5 b (hb ▸ hbmem)
      simp only [Span.blockId] at hid
      omega
    · intro _
      simp only [Span.base, Span.off]
      exact alignment_offset_add_mod _ _ hal
  · -- slow path, standalone block
    simp only [Option.some.injEq, Prod.mk.injEq] at h
    obtain ⟨hsp, har⟩ := h
    subst hsp; subst har
    have hal : 0 < alignment := Nat.pos_of_ne_zero h1
    have hoff : alignment_offset (addrOf ar.nextId) alignment < alignment :=
      alignment_offset_lt _ _ hal
    refine ⟨rfl, rfl, rfl, Nat.le_succ _, rfl, ?_, ?_, ?_, ?_, ?_⟩
    · intro b hbmem
      rw [hb] at hbmem
      exact ⟨b, List.mem_append_left _ hbmem, rfl, rfl, rfl, le_refl _⟩
    · exact ⟨_, List.mem_append_right _ (List.mem_singleton_self _),
        rfl, rfl, le_refl _⟩
    · rintro ⟨i1, i2, i3, i4, i5⟩
      rw [hb] at i1 i2 i3 i4 i5
      refine ⟨?_, ?_, ?_, ?_, ?_⟩
      · intro b hbmem
        simp only [Arena.blocks] at hbmem
        rcases List.mem_append.mp hbmem with hold | hnew
        · exact i1 b hold
        · rw [List.mem_singleton] at hnew
          subst hnew
          simp only [Block.capacity, Block.filled]
          omega
      · rw [sumCap_cons] at i2
        simp only [Arena.stat_space_occupied, Arena.blocks, sumCap_append,
          sumCap_cons, sumCap_nil, Block.capacity]
        omega
      · rw [sumFilled_cons] at i3
        simp only [Arena.stat_space_allocated, Arena.blocks, sumFilled_append,
          sumFilled_cons, sumFilled_nil, Block.filled]
        omega
      · simp only [Arena.blocks, List.map_append, Block.id]
        rw [List.nodup_append]
        refine ⟨i4, List.nodup_singleton _, ?_⟩
        intro x hx hy
        simp only [List.map_cons, List.map_nil, List.mem_singleton] at hy
        subst hy
        obtain ⟨b, hbmem, hbid⟩ := List.mem_map.mp hx
        exact absurd hbid (Nat.ne_of_lt (i5 b hbmem))
      · intro b hbmem
        simp only [Arena.blocks, Arena.nextId] at hbmem ⊢
        rcases List.mem_append.mp hbmem with hold | hnew
        · exact Nat.lt_succ_of_lt (i5 b hold)
        · rw [List.mem_singleton] at hnew
          subst hnew; simp
    · rintro ⟨i1, i2, i3, i4, i5⟩
      right
      intro b hbmem hid
      exfalso
      rw [hb] at i5
      have := i5 b (hb ▸ hbmem)
      simp only [Span.blockId] at hid
      omega
    · intro _
      simp only [Span.base, Span.off]
      exact alignment_offset_add_mod _ _ hal

/-! ### Lifting through `ensureBlock` to `alloc_raw` -/

theorem ensureBlock_min_block_size (addrOf : Nat → Nat) (ar : Arena) :
    (ensureBlock addrOf ar).min_block_size = ar.min_block_size := by
  unfold ensureBlock; split <;> rfl

theorem ensureBlock_growth_strategy (addrOf : Nat → Nat) (ar : Arena) :
    (ensureBlock addrOf ar).growth_strategy = ar.growth_strategy := by
  unfold ensureBlock; split <;> rfl

theorem ensureBlock_max_waste (addrOf : Nat → Nat) (ar : Arena) :
    (ensureBlock addrOf ar).max_waste_percentage = ar.max_waste_percentage := by
  unfold ensureBlock; split <;> rfl

theorem ensureBlock_nextId_le (addrOf : Nat → Nat) (ar : Arena) :
    ar.nextId ≤ (ensureBlock addrOf ar).nextId := by
  unfold ensureBlock; split
  · exact Nat.le_succ _
  · exact le_refl _

theorem ensureBlock_mem (addrOf : Nat → Nat) (ar : Arena) :
    ∀ b ∈ ar.blocks, b ∈ (ensureBlock addrOf ar).blocks := by
  intro b hbmem
  unfold ensureBlock
  split_ifs with hemp
  · rw [List.isEmpty_iff] at hemp
    rw [hemp] at hbmem
    exact absurd hbmem (List.not_mem_nil b)
  · exact hbmem

theorem ensureBlock_inv (addrOf : Nat → Nat) (ar : Arena)
    (hI : ArenaInv ar) : ArenaInv (ensureBlock addrOf ar) := by
  obtain ⟨i1, i2, i3, i4, i5⟩ := hI
  unfold ensureBlock
  split_ifs with hemp
  · rw [List.isEmpty_iff] at hemp
    rw [hemp] at i2 i3
    rw [sumCap_nil] at i2
    rw [sumFilled_nil] at i3
    refine ⟨?_, ?_, ?_, ?_, ?_⟩
    · intro b hbmem
      rw [List.mem_singleton] at hbmem
      subst hbmem
      simp
    · simp only [Arena.stat_space_occupied, Arena.blocks, sumCap_cons,
        sumCap_nil, Block.capacity]
      omega
    · simp only [Arena.stat_space_allocated, Arena.blocks, sumFilled_cons,
        sumFilled_nil, Block.filled]
      omega
    · simp
    · intro b hbmem
      rw [List.mem_singleton] at hbmem
      subst hbmem
      simp
  · exact ⟨i1, i2, i3, i4, i5⟩

/-- `allocWithHead_sound` lifted to `alloc_raw`: the same guarantees,
stated against the arena as it was before the lazily created initial
block. -/
theorem alloc_raw_sound (addrOf : Nat → Nat) (size alignment : Nat)
    (ar : Arena) (sp : Span) (ar' : Arena)
    (h : alloc_raw addrOf size alignment ar = some (sp, ar')) :
    ar'.min_block_size = ar.min_block_size ∧
    ar'.growth_strategy = ar.growth_strategy ∧
    ar'.max_waste_percentage = ar.max_waste_percentage ∧
    ar.nextId ≤ ar'.nextId ∧
    sp.len = size ∧
    (∀ b ∈ ar.blocks, ∃ b' ∈ ar'.blocks,
      b'.id = b.id ∧ b'.addr = b.addr ∧ b'.capacity = b.capacity ∧
      b.filled ≤ b'.filled) ∧
    (∃ b' ∈ ar'.blocks, sp.blockId = b'.id ∧ sp.base = b'.addr ∧
      sp.off + sp.len ≤ b'.filled) ∧
    (ArenaInv ar → ArenaInv ar') ∧
    (ArenaInv ar →
      sp.len = 0 ∨ ∀ b ∈ ar.blocks, sp.blockId = b.id → b.filled ≤ sp.off) ∧
    (size ≠ 0 → (sp.base + sp.off) % alignment = 0) := by
  simp only [alloc_raw] at h
  cases hblk : (ensureBlock addrOf ar).blocks with
  | nil => rw [hblk] at h; exact absurd h (by simp)
  | cons curBlock rest =>
    rw [hblk] at h
    obtain ⟨c1, c2, c3, c4, c5, c6, c7, c8, c9, c10⟩ :=
      allocWithHead_sound addrOf size alignment curBlock rest
        (ensureBlock addrOf ar) sp ar' hblk h
    refine ⟨c1.trans (ensureBlock_min_block_size addrOf ar),
      c2.trans (ensureBlock_growth_strategy addrOf ar),
      c3.trans (ensureBlock_max_waste addrOf ar),
      le_trans (ensureBlock_nextId_le addrOf ar) c4, c5, ?_, c7,
      fun hI => c8 (ensureBlock_inv addrOf ar hI), ?_, c10⟩
    · intro b hbmem
      exact c6 b (ensureBlock_mem addrOf ar b hbmem)
    · intro hI
      rcases c9 (ensureBlock_inv addrOf ar hI) with hz | hfresh
      · exact Or.inl hz
      · exact Or.inr fun b hbmem hid =>
          hfresh b (ensureBlock_mem addrOf ar b hbmem) hid

/-! ### Soundness of a whole run of allocation requests -/

/-- Induction over a run of allocation requests: the arena invariant is
preserved, blocks survive with their identity, address and capacity, every
span handed out ends within the final length of its block, every non-empty
span starts at or after the pre-run length of any pre-run block it names,
and the spans are pairwise disjoint. -/
theorem runAllocs_sound (addrOf : Nat → Nat) (reqs : List (Nat × Nat))
    (ar : Arena) (sps : List Span) (ar' : Arena)
    (h : runAllocs addrOf reqs ar = some (sps, ar')) (hI : ArenaInv ar) :
    ArenaInv ar' ∧
    (∀ b ∈ ar.blocks, ∃ b' ∈ ar'.blocks,
      b'.id = b.id ∧ b'.addr = b.addr ∧ b'.capacity = b.capacity ∧
      b.filled ≤ b'.filled) ∧
    (∀ s ∈ sps, ∃ b ∈ ar'.blocks, s.blockId = b.id ∧
      s.off + s.len ≤ b.filled) ∧
    (∀ s ∈ sps, s.len = 0 ∨
      ∀ b ∈ ar.blocks, s.blockId = b.id → b.filled ≤ s.off) ∧
    List.Pairwise spansDisjoint sps := by
  induction reqs generalizing ar sps ar' with
  | nil =>
    simp only [runAllocs, Option.some.injEq, Prod.mk.injEq] at h
    obtain ⟨hsps, har⟩ := h
    subst hsps; subst har
    refine ⟨hI, ?_, ?_, ?_, ?_⟩
    · exact fun b hb => ⟨b, hb, rfl, rfl, rfl, le_refl _⟩
    · intro s hs; exact absurd hs (List.not_mem_nil s)
    · intro s hs; exact absurd hs (List.not_mem_nil s)
    · exact List.Pairwise.nil
  | cons req rest ih =>
    obtain ⟨size, alignment⟩ := req
    simp only [runAllocs] at h
    split at h
    · exact absurd h (by simp)
    · rename_i sp ar1 h1
      split at h
      · exact absurd h (by simp)
      · rename_i sps1 ar2 h2
        simp only [Option.some.injEq, Prod.mk.injEq] at h
        obtain ⟨hsps, har⟩ := h
        subst hsps; subst har
        obtain ⟨-, -, -, -, -, amono, aend, ainv, afresh, -⟩ :=
          alloc_raw_sound addrOf size alignment ar sp ar1 h1
        have hI1 : ArenaInv ar1 := ainv hI
        obtain ⟨binv, bmono, bend, bfresh, bpair⟩ :=
          ih ar1 sps1 ar2 h2 hI1
        refine ⟨binv, ?_, ?_, ?_, ?_⟩
        · intro b hb
          obtain ⟨b1, hb1, hid1, haddr1, hcap1, hfill1⟩ := amono b hb
          obtain ⟨b2, hb2, hid2, haddr2, hcap2, hfill2⟩ := bmono b1 hb1
          exact ⟨b2, hb2, hid2.trans hid1, haddr2.trans haddr1,
            hcap2.trans hcap1, le_trans hfill1 hfill2⟩
        · intro s hs
          rcases List.mem_cons.mp hs with hsp | hs1
          · subst hsp
            obtain ⟨b1, hb1, hid1, _, hend1⟩ := aend
            obtain ⟨b2, hb2, hid2, _, _, hfill2⟩ := bmono b1 hb1
            exact ⟨b2, hb2, hid1.trans hid2.symm, le_trans hend1 hfill2⟩
          · exact bend s hs1
        · intro s hs
          rcases List.mem_cons.mp hs with hsp | hs1
          · subst hsp
            exact afresh hI
          · rcases bfresh s hs1 with hz | hfr
            · exact Or.inl hz
            · refine Or.inr fun b hb hbid => ?_
              obtain ⟨b1, hb1, hid1, _, _, hfill1⟩ := amono b hb
              exact le_trans hfill1 (hfr b1 hb1 (hbid.trans hid1.symm))
        · refine List.pairwise_cons.mpr ⟨?_, bpair⟩
          intro t ht
          rcases Nat.eq_zero_or_pos sp.len with hsz | hsz
          · exact Or.inl hsz
          rcases bfresh t ht with htz | hfr
          · exact Or.inr (Or.inl htz)
          by_cases hbid : sp.blockId = t.blockId
          · obtain ⟨b1, hb1, hid1, _, hend1⟩ := aend
            have hfl : b1.filled ≤ t.off :=
              hfr b1 hb1 (hbid ▸ hid1.symm ▸ rfl)
            exact Or.inr (Or.inr (Or.inr (Or.inl (le_trans hend1 hfl))))
          · exact Or.inr (Or.inr (Or.inl hbid))

/-! ### Invariants across arbitrary operation sequences -/

theorem freshArena_inv (min_block_size : Nat) (gs : GrowthStrategy)
    (mw : Nat) : ArenaInv (freshArena min_block_size gs mw) := by
  refine ⟨?_, rfl, ?_, ?_, ?_⟩
  · intro b hbmem; exact absurd hbmem (List.not_mem_nil b)
  · exact le_refl 0
  · exact List.nodup_nil
  · intro b hbmem; exact absurd hbmem (List.not_mem_nil b)

theorem clear_unchecked_inv (ar : Arena) : ArenaInv (clear_unchecked ar) := by
  refine ⟨?_, rfl, ?_, ?_, ?_⟩
  · intro b hbmem; exact absurd hbmem (List.not_mem_nil b)
  · exact le_refl 0
  · exact List.nodup_nil
  · intro b hbmem; exact absurd hbmem (List.not_mem_nil b)

theorem runOps_inv (addrOf : Nat → Nat) (ops : List Op) (ar ar' : Arena)
    (h : runOps addrOf ops ar = some ar') (hI : ArenaInv ar) :
    ArenaInv ar' := by
  induction ops generalizing ar with
  | nil =>
    simp only [runOps, Option.some.injEq] at h
    exact h ▸ hI
  | cons op rest ih =>
    cases op with
    | alloc size alignment =>
      simp only [runOps] at h
      split at h
      · exact absurd h (by simp)
      · rename_i sp ar1 h1
        exact ih ar1 h
          ((alloc_raw_sound addrOf size alignment ar sp ar1 h1).2.2.2.2.2.2.2.1
            hI)
    | clear =>
      simp only [runOps] at h
      exact ih _ h (clear_unchecked_inv ar)
    | stats =>
      simp only [runOps] at h
      exact ih _ h hI

theorem sumFilled_le_sumCap (bs : List Block)
    (h : ∀ b ∈ bs, b.filled ≤ b.capacity) : sumFilled bs ≤ sumCap bs := by
  induction bs with
  | nil => exact le_refl _
  | cons b l ihl =>
    rw [sumFilled_cons, sumCap_cons]
    exact Nat.add_le_add (h b (List.mem_cons_self _ _))
      (ihl fun x hx => h x (List.mem_cons_of_mem _ hx))

/-! ### Claim theorems -/

/-- C1: for every sequence of successful allocation requests on one arena,
the returned spans — as `(block, offset, length)` triples — are pairwise
disjoint (empty spans trivially so) and each lies entirely within the
capacity of the block it was carved from. -/
theorem alloc_spans_disjoint_and_within_capacity (addrOf : Nat → Nat)
    (min_bs : Nat) (gs : GrowthStrategy) (mw : Nat)
    (reqs : List (Nat × Nat)) (sps : List Span) (ar' : Arena)
    (h : runAllocs addrOf reqs (freshArena min_bs gs mw) = some (sps, ar')) :
    List.Pairwise spansDisjoint sps ∧
    ∀ s ∈ sps, ∃ b ∈ ar'.blocks, s.blockId = b.id ∧
      s.off + s.len ≤ b.capacity := by
  obtain ⟨inv', -, hend, -, hpair⟩ :=
    runAllocs_sound addrOf reqs _ sps ar' h (freshArena_inv min_bs gs mw)
  refine ⟨hpair, ?_⟩
  intro s hs
  obtain ⟨b, hb, hid, hlen⟩ := hend s hs
  exact ⟨b, hb, hid, le_trans hlen (inv'.1 b hb)⟩

/-- Witness for C1 at a concrete three-request run. -/
theorem alloc_spans_disjoint_and_within_capacity_witness :
    List.Pairwise spansDisjoint
      ([⟨0, 0, 0, 1⟩, ⟨0, 0, 2, 2⟩, ⟨1, 0, 0, 100⟩] : List Span) ∧
    ∀ s ∈ ([⟨0, 0, 0, 1⟩, ⟨0, 0, 2, 2⟩, ⟨1, 0, 0, 100⟩] : List Span),
      ∃ b ∈ (Arena.mk [⟨0, 0, 64, 4⟩, ⟨1, 0, 103, 100⟩] 64
          GrowthStrategy.Constant 20 167 103 2).blocks,
        s.blockId = b.id ∧ s.off + s.len ≤ b.capacity :=
  alloc_spans_disjoint_and_within_capacity (fun _ => 0) 64
    GrowthStrategy.Constant 20 [(1, 1), (2, 2), (100, 4)]
    [⟨0, 0, 0, 1⟩, ⟨0, 0, 2, 2⟩, ⟨1, 0, 0, 100⟩]
    (Arena.mk [⟨0, 0, 64, 4⟩, ⟨1, 0, 103, 100⟩] 64
      GrowthStrategy.Constant 20 167 103 2) (by decide)

/-- C6: after every successful sequence of operations (allocations, clear,
stats reads) starting from a freshly constructed arena, `occupied >=
allocated` holds, where `occupied` is the `stat_space_occupied` counter and
coincides with the sum of all blocks' capacities (and `allocated`, the
`stat_space_allocated` counter, accumulates the granted request sizes and
stays below the total filled length). -/
theorem occupied_ge_allocated_after_ops (addrOf : Nat → Nat)
    (min_bs : Nat) (gs : GrowthStrategy) (mw : Nat)
    (ops : List Op) (ar' : Arena)
    (h : runOps addrOf ops (freshArena min_bs gs mw) = some ar') :
    ar'.stat_space_allocated ≤ ar'.stat_space_occupied ∧
    ar'.stat_space_occupied = sumCap ar'.blocks := by
  obtain ⟨i1, i2, i3, -, -⟩ :=
    runOps_inv addrOf ops _ ar' h (freshArena_inv min_bs gs mw)
  exact ⟨i2 ▸ le_trans i3 (sumFilled_le_sumCap ar'.blocks i1), i2⟩

/-- Witness for C6 at a concrete operation sequence including a clear and a
stats read. -/
theorem occupied_ge_allocated_after_ops_witness :
    (Arena.mk [⟨0, 0, 64, 3⟩] 64 GrowthStrategy.Constant 20 64 3
        1).stat_space_allocated ≤
      (Arena.mk [⟨0, 0, 64, 3⟩] 64 GrowthStrategy.Constant 20 64 3
        1).stat_space_occupied ∧
    (Arena.mk [⟨0, 0, 64, 3⟩] 64 GrowthStrategy.Constant 20 64 3
        1).stat_space_occupied =
      sumCap (Arena.mk [⟨0, 0, 64, 3⟩] 64 GrowthStrategy.Constant 20 64 3
        1).blocks :=
  occupied_ge_allocated_after_ops (fun _ => 0) 64 GrowthStrategy.Constant 20
    [Op.alloc 1 1, Op.alloc 100 4, Op.clear, Op.alloc 3 1, Op.stats]
    (Arena.mk [⟨0, 0, 64, 3⟩] 64 GrowthStrategy.Constant 20 64 3 1)
    (by decide)

/-- C7: for every arena with positive `min_block_size`, after every
successful sequence of operations every block satisfies
`filled <= capacity`; in particular each `set_len` performed by `alloc_raw`
(fast path and new-block path) sets a length bounded by the block's
capacity. -/
theorem filled_le_capacity_after_ops (addrOf : Nat → Nat)
    (min_bs : Nat) (gs : GrowthStrategy) (mw : Nat)
    (ops : List Op) (ar' : Arena) (_hmin : 0 < min_bs)
    (h : runOps addrOf ops (freshArena min_bs gs mw) = some ar') :
    ∀ b ∈ ar'.blocks, b.filled ≤ b.capacity :=
  (runOps_inv addrOf ops _ ar' h (freshArena_inv min_bs gs mw)).1

/-- Witness for C7 at a concrete run ending with a fast-path and a
new-block `set_len`. -/
theorem filled_le_capacity_after_ops_witness :
    (Block.mk 1 0 256 256).filled ≤ (Block.mk 1 0 256 256).capacity :=
  filled_le_capacity_after_ops (fun _ => 0) 64 GrowthStrategy.Constant 20
    [Op.alloc 1 1, Op.alloc 256 1]
    (Arena.mk [⟨0, 0, 64, 1⟩, ⟨1, 0, 256, 256⟩] 64
      GrowthStrategy.Constant 20 320 257 2) (by decide) (by decide)
    (Block.mk 1 0 256 256) (by decide)

/-- C10: every typed allocation of a zero-sized element type fails (the
`assert!(size_of::<T>() > 0)` panic, modelled as `none`) for every
requested count including 0, before any arena state is mutated — the
failing call produces no successor state at all. -/
theorem zero_sized_type_alloc_fails (addrOf : Nat → Nat)
    (elemAlign len : Nat) (ar : Arena) :
    alloc_array_uninit addrOf 0 elemAlign len ar = none ∧
    alloc_uninit addrOf 0 elemAlign ar = none := by
  constructor
  · simp [alloc_array_uninit]
  · simp [alloc_uninit]

/-- C8: after `clear` / `clear_unchecked` the block store is empty and both
counters are zero, and the arena state is literally the state of a freshly
constructed arena with the same configuration, so every subsequent
operation sequence produces the same results. -/
theorem clear_behaves_like_fresh (ar : Arena) :
    Arena.clear ar = clear_unchecked ar ∧
    clear_unchecked ar =
      freshArena ar.min_block_size ar.growth_strategy
        ar.max_waste_percentage ∧
    (clear_unchecked ar).blocks = [] ∧
    (clear_unchecked ar).stat_space_occupied = 0 ∧
    (clear_unchecked ar).stat_space_allocated = 0 ∧
    ∀ (addrOf : Nat → Nat) (ops : List Op),
      runOps addrOf ops (clear_unchecked ar) =
        runOps addrOf ops
          (freshArena ar.min_block_size ar.growth_strategy
            ar.max_waste_percentage) :=
  ⟨rfl, rfl, rfl, rfl, rfl, fun _ _ => rfl⟩

/-- C9: a size-zero request always succeeds, returns a pointer to the head
block's base address (offset 0 into it), leaves every block's filled
length and the `allocated` counter unchanged, and grows `occupied` only by
the lazy creation of the initial block when the arena had no blocks yet. -/
theorem size_zero_request_no_mutation (addrOf : Nat → Nat)
    (alignment : Nat) (ar : Arena) :
    ∃ sp ar', alloc_raw addrOf 0 alignment ar = some (sp, ar') ∧
      sp.len = 0 ∧ sp.off = 0 ∧
      sp.base = (ar'.blocks.headD default).addr ∧
      sp.blockId = (ar'.blocks.headD default).id ∧
      ar'.blocks.map Block.filled =
        (if ar.blocks.isEmpty then [0] else ar.blocks.map Block.filled) ∧
      ar'.stat_space_allocated = ar.stat_space_allocated ∧
      ar'.stat_space_occupied = ar.stat_space_occupied +
        (if ar.blocks.isEmpty then ar.min_block_size else 0) := by
  cases hb : ar.blocks with
  | nil =>
    have he : alloc_raw addrOf 0 alignment ar =
        some (⟨ar.nextId, addrOf ar.nextId, 0, 0⟩,
          { ar with
            blocks := [⟨ar.nextId, addrOf ar.nextId, ar.min_block_size, 0⟩],
            stat_space_occupied :=
              ar.stat_space_occupied + ar.min_block_size,
            nextId := ar.nextId + 1 }) := by
      simp [alloc_raw, ensureBlock, allocWithHead, hb]
    exact ⟨_, _, he, rfl, rfl, by simp, by simp, by simp [hb], rfl,
      by simp [hb]⟩
  | cons c r =>
    have he : alloc_raw addrOf 0 alignment ar =
        some (⟨c.id, c.addr, 0, 0⟩, ar) := by
      simp [alloc_raw, ensureBlock, allocWithHead, hb]
    exact ⟨_, _, he, rfl, rfl, by simp [hb], by simp [hb], by simp [hb],
      rfl, by simp [hb]⟩

/-- C2: when a positive-size request does not fit in the head block, the
arena computes `waste = min((cap - filled)*100/cap,
(occupied - allocated)*100/occupied)` with integer division, and creates a
new block: a shared block of capacity `next_shared_size` made the new head
if and only if `size + alignment <= next_shared_size` and
`waste <= max_waste_percentage`, otherwise a standalone block of capacity
`size + alignment - 1` appended at the back (never made head); in both
cases the new capacity is added to `occupied` and `size` to `allocated`. -/
theorem slow_path_creates_block_per_heuristic (addrOf : Nat → Nat)
    (size alignment : Nat) (ar : Arena) (curBlock : Block)
    (rest : List Block) (hb : ar.blocks = curBlock :: rest)
    (hsz : 0 < size) (hal : 0 < alignment)
    (hcap : 0 < curBlock.capacity) (hocc : 0 < ar.stat_space_occupied)
    (hnofit : curBlock.capacity <
      curBlock.filled +
        alignment_offset (curBlock.addr + curBlock.filled) alignment +
        size) :
    ∃ sp ar', alloc_raw addrOf size alignment ar = some (sp, ar') ∧
      (let nss := next_shared_size ar.growth_strategy ar.min_block_size
        ar.stat_space_occupied
      let waste := min
        ((curBlock.capacity - curBlock.filled) * 100 / curBlock.capacity)
        ((ar.stat_space_occupied - ar.stat_space_allocated) * 100 /
          ar.stat_space_occupied)
      let newSize := if size + alignment ≤ nss ∧
          waste ≤ ar.max_waste_percentage then nss
        else size + alignment - 1
      ar'.stat_space_occupied = ar.stat_space_occupied + newSize ∧
      ar'.stat_space_allocated = ar.stat_space_allocated + size ∧
      ar'.blocks = (if size + alignment ≤ nss ∧
          waste ≤ ar.max_waste_percentage then
        Block.mk ar.nextId (addrOf ar.nextId) newSize
          (alignment_offset (addrOf ar.nextId) alignment + size) ::
          curBlock :: rest
      else (curBlock :: rest) ++
        [Block.mk ar.nextId (addrOf ar.nextId) newSize
          (alignment_offset (addrOf ar.nextId) alignment + size)])) := by
  have he : ensureBlock addrOf ar = ar := by
    simp [ensureBlock, hb]
  have hrun : alloc_raw addrOf size alignment ar =
      allocWithHead addrOf size alignment curBlock rest ar := by
    simp only [alloc_raw, he, hb]
  rw [hrun]
  simp only [allocWithHead]
  rw [if_neg (by omega : ¬size = 0), if_neg (by omega : ¬alignment = 0),
    if_neg (by omega : ¬(curBlock.filled +
      alignment_offset (curBlock.addr + curBlock.filled) alignment + size ≤
      curBlock.capacity)),
    if_neg (by omega : ¬(curBlock.capacity = 0 ∨
      ar.stat_space_occupied = 0))]
  exact ⟨_, _, rfl, rfl, rfl, rfl⟩

/-- Witness for C2: a full 4-byte head block, an 8-byte request with
alignment 1 on a `min_block_size = 4` arena takes the standalone branch. -/
theorem slow_path_creates_block_per_heuristic_witness :
    ∃ sp ar',
      alloc_raw (fun _ => 0) 8 1
        (Arena.mk [⟨0, 0, 4, 4⟩] 4 GrowthStrategy.Constant 20 4 4 1)
        = some (sp, ar') ∧
      (let nss := next_shared_size
        (Arena.mk [⟨0, 0, 4, 4⟩] 4 GrowthStrategy.Constant 20 4 4
          1).growth_strategy
        (Arena.mk [⟨0, 0, 4, 4⟩] 4 GrowthStrategy.Constant 20 4 4
          1).min_block_size
        (Arena.mk [⟨0, 0, 4, 4⟩] 4 GrowthStrategy.Constant 20 4 4
          1).stat_space_occupied
      let waste := min (((4 : Nat) - 4) * 100 / 4) (((4 : Nat) - 4) * 100 / 4)
      let newSize := if 8 + 1 ≤ nss ∧ waste ≤ 20 then nss else 8 + 1 - 1
      ar'.stat_space_occupied = 4 + newSize ∧
      ar'.stat_space_allocated = 4 + 8 ∧
      ar'.blocks = (if 8 + 1 ≤ nss ∧ waste ≤ 20 then
        Block.mk 1 0 newSize (alignment_offset 0 1 + 8) ::
          (⟨0, 0, 4, 4⟩ : Block) :: []
      else ((⟨0, 0, 4, 4⟩ : Block) :: []) ++
        [Block.mk 1 0 newSize (alignment_offset 0 1 + 8)])) := by
  have := slow_path_creates_block_per_heuristic (fun _ => 0) 8 1
    (Arena.mk [⟨0, 0, 4, 4⟩] 4 GrowthStrategy.Constant 20 4 4 1)
    ⟨0, 0, 4, 4⟩ [] rfl (by decide) (by decide) (by decide) (by decide)
    (by decide)
  exact this

/-- Counterexample to C3: at `occupied = 199`, `Percentage(100)`,
`min_block_size = 64` the code's next-shared-size (`occupied / 100 * p`,
division first) yields 64, while the claimed formula
(`occupied * p / 100`) yields 192. -/
theorem percentage_formula_counterexample :
    next_shared_size (GrowthStrategy.Percentage 100) 64 199 = 64 ∧
    next_shared_size_spec (GrowthStrategy.Percentage 100) 64 199 = 192 ∧
    next_shared_size (GrowthStrategy.Percentage 100) 64 199 ≠
      next_shared_size_spec (GrowthStrategy.Percentage 100) 64 199 := by
  exact ⟨rfl, rfl, by decide⟩

/-- C3 (amended): for `Percentage(p)` with `1 <= p <= 100` the next shared
block size equals `max(min_block_size, a - a % min_block_size)` where
`a = occupied / 100 * p` — the occupancy is floor-divided by 100 *before*
multiplying by `p`; for `Constant` it is always `min_block_size`. -/
theorem next_shared_size_percentage_eq (p min_bs occupied : Nat)
    (_h1 : 1 ≤ p) (_h2 : p ≤ 100) :
    next_shared_size (GrowthStrategy.Percentage p) min_bs occupied =
      max min_bs (occupied / 100 * p - occupied / 100 * p % min_bs) ∧
    next_shared_size GrowthStrategy.Constant min_bs occupied = min_bs :=
  ⟨rfl, rfl⟩

/-- Witness for C3's amended theorem at `p = 50`, `min_block_size = 64`,
`occupied = 1000`. -/
theorem next_shared_size_percentage_eq_witness :
    next_shared_size (GrowthStrategy.Percentage 50) 64 1000 =
      max 64 (1000 / 100 * 50 - 1000 / 100 * 50 % 64) ∧
    next_shared_size GrowthStrategy.Constant 64 1000 = 64 :=
  next_shared_size_percentage_eq 50 64 1000 (by decide) (by decide)

/-- Counterexample to C4: a successful size-zero request with power-of-two
alignment 2 on an arena whose head block sits at odd address 1 returns
address 1, which is not congruent to 0 mod 2 — the size-zero early return
hands back the head block's base address without aligning it. -/
theorem size_zero_alloc_can_be_unaligned :
    ∃ sp ar',
      alloc_raw (fun _ => 1) 0 2 (freshArena 64 GrowthStrategy.Constant 20)
        = some (sp, ar') ∧ (sp.base + sp.off) % 2 = 1 :=
  ⟨⟨0, 1, 0, 0⟩,
    Arena.mk [⟨0, 1, 64, 0⟩] 64 GrowthStrategy.Constant 20 64 0 1,
    by decide, by decide⟩

/-- C4 (amended): for every successful allocation request of size greater
than zero with a power-of-two alignment `A`, the returned address is
congruent to 0 mod `A`; size-zero requests instead return the head block's
base address unaligned. -/
theorem alloc_address_aligned (addrOf : Nat → Nat) (size alignment : Nat)
    (ar : Arena) (sp : Span) (ar' : Arena) (hsz : 0 < size)
    (_hpow : ∃ k, alignment = 2 ^ k)
    (h : alloc_raw addrOf size alignment ar = some (sp, ar')) :
    (sp.base + sp.off) % alignment = 0 :=
  (alloc_raw_sound addrOf size alignment ar sp ar' h).2.2.2.2.2.2.2.2.2
    (Nat.pos_iff_ne_zero.mp hsz)

/-- Witness for C4's amended theorem: a 3-byte request with alignment 4. -/
theorem alloc_address_aligned_witness :
    ((⟨0, 0, 0, 3⟩ : Span).base + (⟨0, 0, 0, 3⟩ : Span).off) % 4 = 0 :=
  alloc_address_aligned (fun _ => 0) 3 4
    (freshArena 64 GrowthStrategy.Constant 20) ⟨0, 0, 0, 3⟩
    (Arena.mk [⟨0, 0, 64, 3⟩] 64 GrowthStrategy.Constant 20 64 3 1)
    (by decide) ⟨2, rfl⟩ (by decide)

/-- Counterexample to C5: in a `min_block_size = 64` arena, after two
1-byte allocations A and B, a 256-byte allocation lands in a standalone
block pushed to the back — but the subsequent small allocation D lands in
the *original* 64-byte block (span `⟨0, 0, 2, 1⟩` in block 0, the block
that also holds A and B), which is still the head, not in a new shared
block as the claim states. -/
theorem standalone_does_not_supersede_head :
    runAllocs (fun _ => 0) [(1, 1), (1, 1), (256, 1), (1, 1)]
        (freshArena 64 GrowthStrategy.Constant 20)
      = some ([⟨0, 0, 0, 1⟩, ⟨0, 0, 1, 1⟩, ⟨1, 0, 0, 256⟩, ⟨0, 0, 2, 1⟩],
          Arena.mk [⟨0, 0, 64, 3⟩, ⟨1, 0, 256, 256⟩] 64
            GrowthStrategy.Constant 20 320 259 2) := by
  decide

/-- C5 (amended): in a `min_block_size = 64` arena, after two small
allocations A and B, a 256-byte allocation lands in a standalone frozen
block appended at the back of the block store, and a subsequent small
allocation D lands in the *original* 64-byte block — which remains the
head, since creating a standalone block does not supersede the head — and
not in the standalone block. -/
theorem standalone_scenario_trace :
    ∃ sps ar',
      runAllocs (fun _ => 0) [(1, 1), (1, 1), (256, 1), (1, 1)]
          (freshArena 64 GrowthStrategy.Constant 20) = some (sps, ar') ∧
      -- the 256-byte allocation went to block 1, the standalone block,
      -- which sits at the back with capacity 256 and is not the head:
      sps.getD 2 default = ⟨1, 0, 0, 256⟩ ∧
      ar'.blocks.getD 1 default = ⟨1, 0, 256, 256⟩ ∧
      (ar'.blocks.headD default).id = 0 ∧
      -- D went to block 0, the original block that also holds A:
      (sps.getD 3 default).blockId = 0 ∧
      (sps.getD 0 default).blockId = 0 ∧
      (sps.getD 3 default).blockId ≠ 1 := by
  refine ⟨[⟨0, 0, 0, 1⟩, ⟨0, 0, 1, 1⟩, ⟨1, 0, 0, 256⟩, ⟨0, 0, 2, 1⟩],
    Arena.mk [⟨0, 0, 64, 3⟩, ⟨1, 0, 256, 256⟩] 64
      GrowthStrategy.Constant 20 320 259 2,
    by decide, by decide, by decide, by decide, by decide, by decide,
    by decide⟩
